import Mathlib

/-!
Shallow embedding of `ph_unfolder/phonon/band_structure.py` (class `BandStructure`).

The class is a stateful path-traversal engine: for every q-point on every requested
path it advances a cumulative reciprocal-space distance, asks an eigenstate
collaborator for per-point data, streams two spectral-density records per point,
and accumulates per-path arrays into whole-band-structure containers.  Two
serializers (`write_hdf5`, `write_yaml`) flatten the containers afterwards.

Modelling conventions:
* Machine floats become exact reals; `np.linalg.norm` is the Euclidean norm
  written out as `Real.sqrt` of a sum of squares.
* External collaborators (the eigenstate extractor, the density extractor, the
  group-velocity calculator) are pure oracles: records of functions of the
  q-point or of the whole path.  The density extractor's observable effect (one
  `calculate_density` + `print_partial_density` pair appending one record to an
  open stream) is modelled as an `Event` appended to a chronological log, as is
  one batch invocation of the group-velocity calculator.
* Python exceptions become an `Option PyError` carried next to the state that
  is still observable after the exception (object attributes and stream
  contents persist; locals of the raising frame are discarded).
* Python lists built by `append` inside a loop are built by consing the current
  element onto the recursive result; the resulting list is the same.
* An attribute that is never assigned is an `Option` field holding `none`;
  reading it raises `AttributeError` exactly as in Python.
-/

/-- A q-point or 3-vector: reduced coordinates, one real per axis. -/
abbrev Vec3 : Type := Fin 3 → ℝ

/-- A 3x3 real matrix, e.g. the real-space lattice of the ideal primitive cell
(`self._cell.get_cell()`). -/
abbrev Mat3 : Type := Matrix (Fin 3) (Fin 3) ℝ

/-- `np.linalg.norm`: the Euclidean norm of a 3-vector. -/
noncomputable def linalgNorm (v : Vec3) : ℝ :=
  Real.sqrt (∑ i : Fin 3, v i ^ 2)

/-- `np.linalg.inv` on a 3x3 matrix. -/
noncomputable def mat3Inv (m : Mat3) : Mat3 := m⁻¹

/-- `np.linalg.inv(...).T`, the matrix `_shift_point` multiplies deltas by. -/
noncomputable def mat3InvT (m : Mat3) : Mat3 :=
  Matrix.transpose (mat3Inv m)

/-- The state of the path-point walker: `self._distance` and `self._lastq`.
`_lastq` does not exist before the first `_set_initial_point` call in the
source; it is initialised to the zero vector here and is never read before
`_set_initial_point` runs. -/
structure Walker where
  distance : ℝ
  lastq : Vec3

/-- `_set_initial_point(qpoint)`: `self._lastq = qpoint.copy()`.  Only the
reference point changes; the cumulative distance is untouched. -/
def set_initial_point (w : Walker) (q : Vec3) : Walker :=
  { w with lastq := q }

/-- `_shift_point(qpoint)`:
`self._distance += np.linalg.norm(np.dot(qpoint - self._lastq, np.linalg.inv(self._cell.get_cell()).T))`
followed by `self._lastq = qpoint.copy()`. -/
noncomputable def shift_point (cell : Mat3) (w : Walker) (q : Vec3) : Walker :=
  { distance := w.distance +
      linalgNorm (Matrix.vecMul (q - w.lastq) (mat3InvT cell))
    lastq := q }

/-- The result quadruple of `Eigenstates.extract_eigenstates(q)`:
eigenvalues, eigenvectors, partial weights, rotated partial weights. -/
structure ExtractResult where
  eigvals : List ℝ
  eigvecs : List (List ℂ)
  pr_weights : List ℝ
  rot_pr_weights : List (List ℝ)

/-- The eigenstate collaborator (external, from `ph_unfolder.phonon.eigenstates`),
purified: every query is a function of the q-point most recently extracted,
matching the source's pattern of calling `extract_eigenstates(q)` and then
reading `get_pointgroup_symbol()`, `get_narms()`, `get_num_irs()`,
`get_ir_labels()` from the collaborator's latest state. -/
structure Eigenstates where
  extract_eigenstates : Vec3 → ExtractResult
  get_pointgroup_symbol : Vec3 → String
  get_narms : Vec3 → ℕ
  get_num_irs : Vec3 → ℕ
  get_ir_labels : Vec3 → List String

/-- Modelled from the spec: `calculate_frequencies` is imported from
`ph_unfolder.phonon.eigenstates`, whose source is not part of the provided
files.  Per the spec, `frequency = sign(lambda) * factor * sqrt(abs(lambda))`. -/
noncomputable def calculate_frequencies (eigvals : List ℝ) (factor : ℝ) : List ℝ :=
  eigvals.map (fun l => Real.sign l * factor * Real.sqrt |l|)

/-- The group-velocity collaborator: one batch call consuming a whole path,
producing one list of per-band 3-vectors per point (`set_q_points` followed by
`get_group_velocity`). -/
def GvCalc : Type := List Vec3 → List (List Vec3)

/-- Which of the two spectral-function streams a density record was printed to:
`spectral_functions_atoms.dat` or `spectral_functions_irs.dat`. -/
inductive SfStream where
  | atoms
  | irs
deriving DecidableEq

/-- The weights argument handed to `calculate_density`: the atoms stream gets the
atom-resolved partial weights (one real per band), the irs stream gets the
rotated partial weights sliced to the first `num_irs` columns. -/
inductive WeightsData where
  | atoms (w : List ℝ)
  | irs (w : List (List ℝ))

/-- One `calculate_density(...)` + `print_partial_density(stream)` pair: the
arguments of the calculation whose formatted result is appended to a stream. -/
structure DensityCall where
  distance : ℝ
  narms : ℕ
  frequencies : List ℝ
  weights_data : WeightsData
  eigenvectors_data : Option (List (List ℂ))

/-- An observable collaborator event during `_set_band`: one density record
printed to a stream, or one batch invocation of the group-velocity calculator. -/
inductive Event where
  | density (s : SfStream) (c : DensityCall)
  | gvBatch (qs : List Vec3)

/-- Python exceptions that the modelled code can raise. -/
inductive PyError where
  | valueError
  | indexError
  | typeError
  | attributeError (name : String)
deriving DecidableEq

/-- The attributes of `self` that `_set_band` / `_solve_dm_on_path` read. -/
structure Config where
  cell : Mat3
  factor : ℝ
  is_eigenvectors : Bool
  group_velocity : Option GvCalc
  is_nac : Bool
  es : Eigenstates

/-- The density call printed to the atoms stream for q-point `q` at cumulative
distance `d` (source lines 254-258): atom-resolved partial weights, with the
point's eigenvectors passed as `eigenvectors_data`. -/
noncomputable def atomsCallAt (cfg : Config) (q : Vec3) (d : ℝ) : DensityCall :=
  { distance := d
    narms := cfg.es.get_narms q
    frequencies := calculate_frequencies (cfg.es.extract_eigenstates q).eigvals cfg.factor
    weights_data := WeightsData.atoms (cfg.es.extract_eigenstates q).pr_weights
    eigenvectors_data := some (cfg.es.extract_eigenstates q).eigvecs }

/-- The density call printed to the irs stream for q-point `q` at cumulative
distance `d` (source lines 260-263): rotated partial weights sliced to the
first `num_irs` columns (`rot_pr_weights[:, :num_irs]`), and no eigenvector
argument. -/
noncomputable def irsCallAt (cfg : Config) (q : Vec3) (d : ℝ) : DensityCall :=
  { distance := d
    narms := cfg.es.get_narms q
    frequencies := calculate_frequencies (cfg.es.extract_eigenstates q).eigvals cfg.factor
    weights_data := WeightsData.irs
      ((cfg.es.extract_eigenstates q).rot_pr_weights.map (List.take (cfg.es.get_num_irs q)))
    eigenvectors_data := none }

/-- The two events emitted for one solved q-point, in order: the atoms-stream
print, then the irs-stream print. -/
noncomputable def pointEvents (cfg : Config) (q : Vec3) (d : ℝ) : List Event :=
  [Event.density SfStream.atoms (atomsCallAt cfg q d),
   Event.density SfStream.irs (irsCallAt cfg q d)]

/-- The group-velocity events emitted at the head of one path: one batch call
if a collaborator is configured, nothing otherwise (source lines 225-227). -/
def gvEvents (cfg : Config) (path : List Vec3) : List Event :=
  match cfg.group_velocity with
  | some _ => [Event.gvBatch path]
  | none => []

/-- Everything the per-point loop of `_solve_dm_on_path` has produced:
the local `*_on_path` lists, the emitted events, the walker state, and the
first exception, if any.  On an exception the `*_on_path` locals of the
raising frame are discarded by the caller; they are kept here so that the
order of operations inside one iteration stays visible. -/
structure PointsResult where
  distances : List ℝ := []
  frequencies : List (List ℝ) := []
  eigvecs : List (List (List ℂ)) := []
  pr_weights : List (List ℝ) := []
  nqstar : List ℕ := []
  gv : List (List Vec3) := []
  rot_pr_weights : List (List (List ℝ)) := []
  num_irs : List ℕ := []
  ir_labels : List (List String) := []
  pg_symbol : List String := []
  log : List Event := []
  walker : Walker
  error : Option PyError := none

/-- The per-point loop of `_solve_dm_on_path` (source lines 229-272), for the
points of one path, with `i` the running `enumerate` index used to read the
batch group-velocity result `gv[i]`.  Per iteration, in source order:
`_shift_point(q)`; append the cumulative distance; raise `ValueError` if NAC
is enabled; extract eigenstates; derive frequencies; read point-group symbol,
arm count, irrep count and labels; print the two density records; append the
per-point quantities; append the eigenvectors if retained; append `gv[i]` if a
group-velocity calculator is configured (an out-of-range index raises). -/
noncomputable def solve_points (cfg : Config) (gvb : Option (List (List Vec3)))
    (w : Walker) (i : ℕ) : List Vec3 → PointsResult
  | [] => { walker := w }
  | q :: rest =>
    let w' := shift_point cfg.cell w q
    if cfg.is_nac then
      { distances := [w'.distance], walker := w', error := some PyError.valueError }
    else
      let ex := cfg.es.extract_eigenstates q
      let frequencies := calculate_frequencies ex.eigvals cfg.factor
      let pg := cfg.es.get_pointgroup_symbol q
      let narms := cfg.es.get_narms q
      let nirs := cfg.es.get_num_irs q
      let labels := cfg.es.get_ir_labels q
      let events := pointEvents cfg q w'.distance
      match gvb with
      | none =>
        let r := solve_points cfg none w' (i + 1) rest
        { distances := w'.distance :: r.distances
          frequencies := frequencies :: r.frequencies
          eigvecs := if cfg.is_eigenvectors then ex.eigvecs :: r.eigvecs else r.eigvecs
          pr_weights := ex.pr_weights :: r.pr_weights
          nqstar := narms :: r.nqstar
          gv := r.gv
          rot_pr_weights := ex.rot_pr_weights :: r.rot_pr_weights
          num_irs := nirs :: r.num_irs
          ir_labels := labels :: r.ir_labels
          pg_symbol := pg :: r.pg_symbol
          log := events ++ r.log
          walker := r.walker
          error := r.error }
      | some gvlist =>
        match gvlist[i]? with
        | none =>
          { distances := [w'.distance]
            frequencies := [frequencies]
            eigvecs := if cfg.is_eigenvectors then [ex.eigvecs] else []
            pr_weights := [ex.pr_weights]
            nqstar := [narms]
            gv := []
            rot_pr_weights := [ex.rot_pr_weights]
            num_irs := [nirs]
            ir_labels := [labels]
            pg_symbol := [pg]
            log := events
            walker := w'
            error := some PyError.indexError }
        | some gvi =>
          let r := solve_points cfg (some gvlist) w' (i + 1) rest
          { distances := w'.distance :: r.distances
            frequencies := frequencies :: r.frequencies
            eigvecs := if cfg.is_eigenvectors then ex.eigvecs :: r.eigvecs else r.eigvecs
            pr_weights := ex.pr_weights :: r.pr_weights
            nqstar := narms :: r.nqstar
            gv := gvi :: r.gv
            rot_pr_weights := ex.rot_pr_weights :: r.rot_pr_weights
            num_irs := nirs :: r.num_irs
            ir_labels := labels :: r.ir_labels
            pg_symbol := pg :: r.pg_symbol
            log := events ++ r.log
            walker := r.walker
            error := r.error }

/-- Everything `_set_band` (source lines 154-207) has accumulated over the
paths: the whole-band-structure containers, the special-point distances
appended after each path (`special_tail`; the pre-seeded leading `0.` is added
by the constructor model), the surviving `self._pg_symbol_on_path` attribute,
the chronological event log, the walker, and the first exception, if any. -/
structure BandResult where
  distances : List (List ℝ) := []
  frequencies : List (List (List ℝ)) := []
  pr_weights : List (List (List ℝ)) := []
  rot_pr_weights : List (List (List (List ℝ))) := []
  nums_arms : List (List ℕ) := []
  nums_irreps : List (List ℕ) := []
  ir_labels : List (List (List String)) := []
  pg_symbols : List (List String) := []
  eigvecs : List (List (List (List ℂ))) := []
  group_velocities : List (List (List Vec3)) := []
  special_tail : List ℝ := []
  pg_symbol_on_path : Option (List String) := none
  log : List Event := []
  walker : Walker
  error : Option PyError := none

/-- The per-path loop of `_set_band` (source lines 167-193).  Per path:
`_set_initial_point(path[0])` (raising `IndexError` on an empty path); the
batch group-velocity call if configured; the per-point loop; then, if the path
loop completed, append each returned list to the whole-structure containers
(`pg_symbols` receives `get_pg_symbol_on_path()`, i.e. the whole per-point
list of symbols of the path), append the eigenvector and group-velocity lists
only under their flags, and append the current cumulative distance to the
special points.  On an exception only the walker, the stream log and the
completed-path appends survive. -/
noncomputable def set_band_loop (cfg : Config) (w : Walker) :
    List (List Vec3) → BandResult
  | [] => { walker := w }
  | path :: rest =>
    match path with
    | [] => { walker := w, error := some PyError.indexError }
    | q0 :: _ =>
      let w0 := set_initial_point w q0
      let gvb := cfg.group_velocity.map (fun f => f path)
      let pr := solve_points cfg gvb w0 0 path
      match pr.error with
      | some e =>
        { walker := pr.walker, log := gvEvents cfg path ++ pr.log, error := some e }
      | none =>
        let r := set_band_loop cfg pr.walker rest
        { distances := pr.distances :: r.distances
          frequencies := pr.frequencies :: r.frequencies
          pr_weights := pr.pr_weights :: r.pr_weights
          rot_pr_weights := pr.rot_pr_weights :: r.rot_pr_weights
          nums_arms := pr.nqstar :: r.nums_arms
          nums_irreps := pr.num_irs :: r.nums_irreps
          ir_labels := pr.ir_labels :: r.ir_labels
          pg_symbols := pr.pg_symbol :: r.pg_symbols
          eigvecs := if cfg.is_eigenvectors then pr.eigvecs :: r.eigvecs else r.eigvecs
          group_velocities :=
            match cfg.group_velocity with
            | some _ => pr.gv :: r.group_velocities
            | none => r.group_velocities
          special_tail := pr.walker.distance :: r.special_tail
          pg_symbol_on_path :=
            match r.pg_symbol_on_path with
            | some v => some v
            | none => some pr.pg_symbol
          log := gvEvents cfg path ++ pr.log ++ r.log
          walker := r.walker
          error := r.error }

/-- The constructor arguments of `BandStructure.__init__` that the modelled
behaviour depends on.  `cell` and `natom` stand for the ideal primitive cell
returned by the external `get_primitive(unitcell_ideal, primitive_matrix_ideal)`;
`is_nac` is the read-only flag `dynamical_matrix.is_nac()`; `es` is the
eigenstate collaborator built in `__init__`. -/
structure Args where
  paths : List (List Vec3)
  is_nac : Bool
  cell : Mat3
  natom : ℕ
  es : Eigenstates
  factor : ℝ
  is_eigenvectors : Bool
  is_band_connection : Bool
  group_velocity : Option GvCalc

/-- The `Config` visible to `_set_band`: as in `__init__`, a true
`is_band_connection` forces eigenvector retention on. -/
def cfgOf (a : Args) : Config :=
  { cell := a.cell
    factor := a.factor
    is_eigenvectors := a.is_eigenvectors || a.is_band_connection
    group_velocity := a.group_velocity
    is_nac := a.is_nac
    es := a.es }

/-- The whole `_set_band` run started from the constructor's initial state
(`self._distance = 0.`; `self._lastq` not yet meaningful). -/
noncomputable def bandRun (a : Args) : BandResult :=
  set_band_loop (cfgOf a) { distance := 0, lastq := 0 } a.paths

/-- The observable attributes of a `BandStructure` object.  Attributes that
`__init__` initialises but `_set_band` only assigns on completion
(lines 195-207) are `Option`-valued and stay `none` when construction raised.
`weights` models `self._weights`, which NO method of the class ever assigns
(`_set_band` assigns `self._pr_weights` instead); it is therefore always
`none`, and reading it raises `AttributeError`. -/
structure BandStructure where
  paths : List (List Vec3)
  cell : Mat3
  natom : ℕ
  factor : ℝ
  is_eigenvectors : Bool
  group_velocity : Option GvCalc
  distance : ℝ
  special_point : List ℝ
  distances : List (List ℝ)
  frequencies : Option (List (List (List ℝ)))
  pr_weights : Option (List (List (List ℝ)))
  rot_pr_weights : Option (List (List (List (List ℝ))))
  nums_arms : Option (List (List ℕ))
  nums_irreps : Option (List (List ℕ))
  ir_labels : Option (List (List (List String)))
  pg_symbols : Option (List (List String))
  eigenvectors : Option (List (List (List (List ℂ))))
  group_velocities : Option (List (List (List Vec3)))
  weights : Option (List (List (List ℝ)))
  log : List Event

/-- `BandStructure.__init__`: stores the configuration, seeds
`self._special_point = [0.]` and `self._distance = 0.`, opens the two
spectral-function streams, and runs `_set_band`.  The second component is the
exception propagating out of the constructor, if any; the first component is
the object state observable at that time (on an exception the final
assignments of `_set_band` have not run, so the late-assigned containers are
still `none` / empty). -/
noncomputable def initBandStructure (a : Args) : BandStructure × Option PyError :=
  let cfg := cfgOf a
  let r := bandRun a
  let base : BandStructure :=
    { paths := a.paths
      cell := a.cell
      natom := a.natom
      factor := a.factor
      is_eigenvectors := cfg.is_eigenvectors
      group_velocity := a.group_velocity
      distance := r.walker.distance
      special_point := 0 :: r.special_tail
      distances := []
      frequencies := none
      pr_weights := none
      rot_pr_weights := none
      nums_arms := none
      nums_irreps := none
      ir_labels := none
      pg_symbols := none
      eigenvectors := none
      group_velocities := none
      weights := none
      log := r.log }
  match r.error with
  | some e => (base, some e)
  | none =>
    ({ base with
        distances := r.distances
        frequencies := some r.frequencies
        pr_weights := some r.pr_weights
        rot_pr_weights := some r.rot_pr_weights
        nums_arms := some r.nums_arms
        nums_irreps := some r.nums_irreps
        ir_labels := some r.ir_labels
        pg_symbols := some r.pg_symbols
        eigenvectors := if cfg.is_eigenvectors then some r.eigvecs else none
        group_velocities :=
          match a.group_velocity with
          | some _ => some r.group_velocities
          | none => none }, none)

/-- The payload of one `create_dataset` record in `band.hdf5`.  `gv_object`
holds a group-velocity CALCULATOR, because the source writes
`data=self._group_velocity` (the collaborator object), not
`self._group_velocities` (the collected arrays); `group_velocities_data` is
the constructor the collected arrays would use and is never produced by the
modelled code. -/
inductive H5Data where
  | paths_data (v : List (List Vec3))
  | distances_data (v : List (List ℝ))
  | nums_arms_data (v : List (List ℕ))
  | pg_symbols_data (v : List (List String))
  | nums_irreps_data (v : List (List ℕ))
  | ir_labels_data (v : List (List (List String)))
  | frequencies_data (v : List (List (List ℝ)))
  | pr_weights_data (v : List (List (List ℝ)))
  | gv_object (f : GvCalc)
  | group_velocities_data (v : List (List (List Vec3)))
  | eigenvectors_data (v : List (List (List (List ℂ))))

/-- `write_hdf5` (source lines 82-97): one named record per logical array, in
source order; the `rot_pr_weights` record is commented out in the source; the
`group_velocities` record is written iff `self._group_velocity` (the
collaborator) is configured, and its data IS that collaborator object (source
line 95); the `eigenvectors_data` record is written iff `self._eigenvectors`
is set.  Reading a late-assigned attribute of an object whose construction
raised would itself raise; that unreachable case is folded into one error. -/
noncomputable def write_hdf5 (bs : BandStructure) :
    Except PyError (List (String × H5Data)) :=
  match bs.nums_arms, bs.pg_symbols, bs.nums_irreps, bs.ir_labels,
      bs.frequencies, bs.pr_weights with
  | some nums_arms, some pg_symbols, some nums_irreps, some ir_labels,
      some frequencies, some pr_weights =>
    Except.ok
      ([("paths", H5Data.paths_data bs.paths),
        ("distances", H5Data.distances_data bs.distances),
        ("nums_arms", H5Data.nums_arms_data nums_arms),
        ("pg_symbols", H5Data.pg_symbols_data pg_symbols),
        ("nums_irreps", H5Data.nums_irreps_data nums_irreps),
        ("ir_labels", H5Data.ir_labels_data ir_labels),
        ("frequencies", H5Data.frequencies_data frequencies),
        ("pr_weights", H5Data.pr_weights_data pr_weights)]
       ++ (match bs.group_velocity with
           | some f => [("group_velocities", H5Data.gv_object f)]
           | none => [])
       ++ (match bs.eigenvectors with
           | some v => [("eigenvectors_data", H5Data.eigenvectors_data v)]
           | none => []))
  | _, _, _, _, _, _ => Except.error (PyError.attributeError "band attributes unset")

/-- One line of `band.yaml`, abstracted to its structured content; the numeric
field widths of the source's format strings are recorded here:
`frequency_line` and `weight_line` are printed `%15.10f`, `group_velocity_line`
components `%13.7f`, `eigenvector_pair` components `%17.14f`. -/
inductive YamlLine where
  | nqpoint_line (n : ℕ)
  | npath_line (n : ℕ)
  | natom_line (n : ℕ)
  | reciprocal_lattice_header
  | reciprocal_vector (v : Vec3) (axis : String)
  | phonon_header
  | q_position (q : Vec3)
  | distance_line (d : ℝ)
  | band_header
  | band_index (k : ℕ)
  | frequency_line (f : ℝ)
  | weight_line (w : ℝ)
  | group_velocity_line (g : Vec3)
  | eigenvector_header
  | atom_header (l : ℕ)
  | eigenvector_pair (re im : ℝ)
  | blank

/-- The preamble of `band.yaml` (source lines 101-113): point count, path
count, atom count, and the reciprocal lattice `np.linalg.inv(cell)` printed
column by column (rows of its transpose) labelled `a*`, `b*`, `c*`. -/
noncomputable def yamlPreamble (bs : BandStructure) : List YamlLine :=
  let lattice := mat3Inv bs.cell
  [YamlLine.nqpoint_line ((bs.paths.map List.length).sum),
   YamlLine.npath_line bs.paths.length,
   YamlLine.natom_line bs.natom,
   YamlLine.reciprocal_lattice_header,
   YamlLine.reciprocal_vector (fun i => lattice i 0) "a*",
   YamlLine.reciprocal_vector (fun i => lattice i 1) "b*",
   YamlLine.reciprocal_vector (fun i => lattice i 2) "c*",
   YamlLine.phonon_header]

/-- One band entry of a q-point block (source lines 124-141): 1-based band
index, frequency, weight; a group-velocity line only if a group-velocity
calculator is configured; an eigenvector block (per atom, per Cartesian axis,
real/imaginary pair of `eigenvectors[j, l * 3 + m, k]`) only if eigenvectors
are retained.  This code is unreachable on objects built by the constructor
(see `write_yaml`); out-of-range numpy indexing is rendered total with zero
defaults. -/
noncomputable def yamlBandBlock (bs : BandStructure) (i j k : ℕ)
    (freq wjk : ℝ) : List YamlLine :=
  [YamlLine.band_index (k + 1),
   YamlLine.frequency_line freq,
   YamlLine.weight_line wjk]
  ++ (match bs.group_velocity with
      | some _ =>
        let gvs := bs.group_velocities.getD []
        [YamlLine.group_velocity_line (((gvs.getD i []).getD j []).getD k 0)]
      | none => [])
  ++ (if bs.is_eigenvectors then
        let evs := bs.eigenvectors.getD []
        YamlLine.eigenvector_header ::
        (List.range bs.natom).flatMap (fun l =>
          YamlLine.atom_header (l + 1) ::
          (([0, 1, 2] : List ℕ).map (fun m =>
            let c := (((evs.getD i []).getD j []).getD (l * 3 + m) []).getD k 0
            YamlLine.eigenvector_pair c.re c.im)))
      else [])

/-- One q-point block of `band.yaml` (source lines 120-143): q-position,
cumulative distance, `band:` header, one band entry per frequency, and a
terminating blank line. -/
noncomputable def yamlQBlock (bs : BandStructure) (i j : ℕ) (q : Vec3)
    (dj : ℝ) (freqsj wsj : List ℝ) : List YamlLine :=
  [YamlLine.q_position q,
   YamlLine.distance_line dj,
   YamlLine.band_header]
  ++ freqsj.enum.flatMap (fun kf => yamlBandBlock bs i j kf.1 kf.2 (wsj.getD kf.1 0))
  ++ [YamlLine.blank]

/-- The body of `band.yaml` (source lines 114-143): one q-point block per point
in path-then-point order, zipping paths, distances, frequencies and weights. -/
noncomputable def yamlBody (bs : BandStructure)
    (freqs ws : List (List (List ℝ))) : List YamlLine :=
  ((bs.paths.zip bs.distances).zip (freqs.zip ws)).enum.flatMap (fun ipd =>
    ipd.2.1.1.enum.flatMap (fun jq =>
      yamlQBlock bs ipd.1 jq.1 jq.2 (ipd.2.1.2.getD jq.1 0)
        (ipd.2.2.1.getD jq.1 []) (ipd.2.2.2.getD jq.1 [])))

/-- `write_yaml` (source lines 99-143): writes the preamble, then evaluates the
arguments of `zip(self._paths, self._distances, self._frequencies,
self._weights)`.  `self._weights` is never assigned by any method of the class
(`_set_band` assigns `self._pr_weights`), so the attribute access raises
`AttributeError` there, after the preamble has been written and before any
q-point block is; the body below it is dead code on every object the
constructor can produce. -/
noncomputable def write_yaml (bs : BandStructure) :
    List YamlLine × Option PyError :=
  match bs.weights with
  | none => (yamlPreamble bs, some (PyError.attributeError "_weights"))
  | some ws =>
    match bs.frequencies with
    | none => (yamlPreamble bs, some PyError.typeError)
    | some freqs => (yamlPreamble bs ++ yamlBody bs freqs ws, none)

/-- Projection selecting the density-print events of a log. -/
def densityOf : Event → Option (SfStream × DensityCall)
  | Event.density s c => some (s, c)
  | Event.gvBatch _ => none

/-- Projection selecting the group-velocity batch-call events of a log. -/
def gvBatchOf : Event → Option (List Vec3)
  | Event.gvBatch qs => some qs
  | Event.density _ _ => none

/-- Whether a yaml line is the opening line of a q-point block. -/
def YamlLine.isQPosition : YamlLine → Bool
  | YamlLine.q_position _ => true
  | _ => false

/-- The event log that one completed path with recorded per-point distances
`dists` contributes: the batch group-velocity call (if configured) first, then
the two density prints per point in point order. -/
noncomputable def pathEventsSpec (cfg : Config) (path : List Vec3)
    (dists : List ℝ) : List Event :=
  gvEvents cfg path ++
    (path.zip dists).flatMap (fun qd => pointEvents cfg qd.1 qd.2)

/-- The whole event log of a completed construction, path by path. -/
noncomputable def logSpec (cfg : Config) (paths : List (List Vec3))
    (dists : List (List ℝ)) : List Event :=
  (paths.zip dists).flatMap (fun pd => pathEventsSpec cfg pd.1 pd.2)

/-- `np.linalg.norm` is non-negative. -/
lemma linalgNorm_nonneg (v : Vec3) : 0 ≤ linalgNorm v :=
  Real.sqrt_nonneg _

/-- The norm of a zero delta is zero. -/
lemma linalgNorm_zero : linalgNorm 0 = 0 := by
  have h : ∀ i : Fin 3, (0 : Vec3) i = (0 : ℝ) := fun _ => rfl
  simp [linalgNorm, h]

/-- One advance never decreases the cumulative distance. -/
lemma shift_point_le (cell : Mat3) (w : Walker) (q : Vec3) :
    w.distance ≤ (shift_point cell w q).distance := by
  simp only [shift_point]
  exact le_add_of_nonneg_right (linalgNorm_nonneg _)

/-- Advancing to the point the walker was just reset to adds a zero increment. -/
lemma shift_point_same (cell : Mat3) (w : Walker) (q : Vec3) :
    (shift_point cell (set_initial_point w q) q).distance = w.distance := by
  simp only [shift_point, set_initial_point]
  rw [sub_self, Matrix.zero_vecMul, linalgNorm_zero, add_zero]

/-- The walker's distance never decreases through the per-point loop. -/
lemma solve_points_walker_mono (cfg : Config) (gvb : Option (List (List Vec3)))
    (w : Walker) (i : ℕ) (pts : List Vec3) :
    w.distance ≤ (solve_points cfg gvb w i pts).walker.distance := by
  induction pts generalizing gvb w i with
  | nil => simp [solve_points]
  | cons q rest ih =>
    have hstep := shift_point_le cfg.cell w q
    cases hnac : cfg.is_nac with
    | true => simpa [solve_points, hnac] using hstep
    | false =>
      cases gvb with
      | none =>
        simp only [solve_points, hnac, Bool.false_eq_true, if_false]
        exact hstep.trans (ih none _ _)
      | some gvlist =>
        cases hg : gvlist[i]? with
        | none => simpa [solve_points, hnac, hg] using hstep
        | some gvi =>
          simp only [solve_points, hnac, Bool.false_eq_true, if_false, hg]
          exact hstep.trans (ih (some gvlist) _ _)

/-- The recorded distances of one path, prefixed with the starting distance,
are non-decreasing. -/
lemma solve_points_chain (cfg : Config) (gvb : Option (List (List Vec3)))
    (w : Walker) (i : ℕ) (pts : List Vec3) :
    List.Chain' (· ≤ ·) (w.distance :: (solve_points cfg gvb w i pts).distances) := by
  induction pts generalizing gvb w i with
  | nil => simp [solve_points]
  | cons q rest ih =>
    have hstep := shift_point_le cfg.cell w q
    cases hnac : cfg.is_nac with
    | true => simpa [solve_points, hnac] using hstep
    | false =>
      cases gvb with
      | none =>
        simp only [solve_points, hnac, Bool.false_eq_true, if_false]
        exact List.chain'_cons.mpr ⟨hstep, ih none _ _⟩
      | some gvlist =>
        cases hg : gvlist[i]? with
        | none => simpa [solve_points, hnac, hg] using hstep
        | some gvi =>
          simp only [solve_points, hnac, Bool.false_eq_true, if_false, hg]
          exact List.chain'_cons.mpr ⟨hstep, ih (some gvlist) _ _⟩

/-- The walker's final distance is the last recorded distance of the path
(or the starting distance when nothing was recorded). -/
lemma solve_points_walker_getLastD (cfg : Config) (gvb : Option (List (List Vec3)))
    (w : Walker) (i : ℕ) (pts : List Vec3) :
    (solve_points cfg gvb w i pts).walker.distance
      = (solve_points cfg gvb w i pts).distances.getLastD w.distance := by
  induction pts generalizing gvb w i with
  | nil => simp [solve_points]
  | cons q rest ih =>
    cases hnac : cfg.is_nac with
    | true => simp [solve_points, hnac]
    | false =>
      cases gvb with
      | none =>
        simp only [solve_points, hnac, Bool.false_eq_true, if_false]
        rw [List.getLastD_cons]
        exact ih none _ _
      | some gvlist =>
        cases hg : gvlist[i]? with
        | none => simp [solve_points, hnac, hg]
        | some gvi =>
          simp only [solve_points, hnac, Bool.false_eq_true, if_false, hg]
          rw [List.getLastD_cons]
          exact ih (some gvlist) _ _

/-- Characterization of a completed (exception-free) per-point loop: one
recorded distance per point, the first being the distance reached at the
path's first point; the retained point-group symbols are the per-point oracle
answers in point order; and the event log is exactly two density prints per
point, in point order, keyed by the recorded distance of that point. -/
lemma solve_points_ok (cfg : Config) (gvb : Option (List (List Vec3)))
    (w : Walker) (i : ℕ) (pts : List Vec3)
    (h : (solve_points cfg gvb w i pts).error = none) :
    (solve_points cfg gvb w i pts).distances.length = pts.length
  ∧ (solve_points cfg gvb w i pts).distances.head?
      = pts.head?.map (fun q => (shift_point cfg.cell w q).distance)
  ∧ (solve_points cfg gvb w i pts).pg_symbol
      = pts.map cfg.es.get_pointgroup_symbol
  ∧ (solve_points cfg gvb w i pts).log
      = (pts.zip (solve_points cfg gvb w i pts).distances).flatMap
          (fun qd => pointEvents cfg qd.1 qd.2) := by
  induction pts generalizing gvb w i with
  | nil => simp [solve_points]
  | cons q rest ih =>
    cases hnac : cfg.is_nac with
    | true => simp [solve_points, hnac] at h
    | false =>
      cases gvb with
      | none =>
        simp only [solve_points, hnac, Bool.false_eq_true, if_false] at h ⊢
        obtain ⟨h1, h2, h3, h4⟩ := ih none (shift_point cfg.cell w q) (i + 1) h
        refine ⟨by simpa using h1, by simp, by simpa using h3, ?_⟩
        simp only [List.zip_cons_cons, List.flatMap_cons, h4]
      | some gvlist =>
        cases hg : gvlist[i]? with
        | none => simp [solve_points, hnac, hg] at h
        | some gvi =>
          simp only [solve_points, hnac, Bool.false_eq_true, if_false, hg] at h ⊢
          obtain ⟨h1, h2, h3, h4⟩ := ih (some gvlist) (shift_point cfg.cell w q) (i + 1) h
          refine ⟨by simpa using h1, by simp, by simpa using h3, ?_⟩
          simp only [List.zip_cons_cons, List.flatMap_cons, h4]

/-- With no group-velocity batch result, nothing is appended to the
per-path group-velocity list. -/
lemma solve_points_gv_none (cfg : Config) (w : Walker) (i : ℕ) (pts : List Vec3) :
    (solve_points cfg none w i pts).gv = [] := by
  induction pts generalizing w i with
  | nil => simp [solve_points]
  | cons q rest ih =>
    cases hnac : cfg.is_nac with
    | true => simp [solve_points, hnac]
    | false =>
      simp only [solve_points, hnac, Bool.false_eq_true, if_false]
      exact ih _ _

/-- On a completed loop with a batch result, the group velocity stored for the
j-th processed point is entry `i + j` of the batch result: pure positional
indexing. -/
lemma solve_points_gv_ok (cfg : Config) (gvlist : List (List Vec3))
    (w : Walker) (i : ℕ) (pts : List Vec3)
    (h : (solve_points cfg (some gvlist) w i pts).error = none) :
    (solve_points cfg (some gvlist) w i pts).gv.length = pts.length
  ∧ ∀ j, j < pts.length →
      (solve_points cfg (some gvlist) w i pts).gv[j]? = gvlist[i + j]? := by
  induction pts generalizing w i with
  | nil => simp [solve_points]
  | cons q rest ih =>
    cases hnac : cfg.is_nac with
    | true => simp [solve_points, hnac] at h
    | false =>
      cases hg : gvlist[i]? with
      | none => simp [solve_points, hnac, hg] at h
      | some gvi =>
        simp only [solve_points, hnac, Bool.false_eq_true, if_false, hg] at h ⊢
        obtain ⟨h1, h2⟩ := ih (shift_point cfg.cell w q) (i + 1) h
        refine ⟨by simpa using h1, ?_⟩
        intro j hj
        cases j with
        | zero => simpa using hg.symm
        | succ j' =>
          have hj' : j' < rest.length := by simpa using hj
          have h3 := h2 j' hj'
          have harith : i + 1 + j' = i + (j' + 1) := by omega
          rw [harith] at h3
          simpa using h3

/-- The per-point loop emits only density events (never a batch call). -/
lemma solve_points_log_densities (cfg : Config) (gvb : Option (List (List Vec3)))
    (w : Walker) (i : ℕ) (pts : List Vec3) :
    (solve_points cfg gvb w i pts).log.filterMap gvBatchOf = [] := by
  induction pts generalizing gvb w i with
  | nil => simp [solve_points]
  | cons q rest ih =>
    cases hnac : cfg.is_nac with
    | true => simp [solve_points, hnac]
    | false =>
      cases gvb with
      | none =>
        simp only [solve_points, hnac, Bool.false_eq_true, if_false]
        simp [pointEvents, gvBatchOf, ih none]
      | some gvlist =>
        cases hg : gvlist[i]? with
        | none => simp [solve_points, hnac, hg, pointEvents, gvBatchOf]
        | some gvi =>
          simp only [solve_points, hnac, Bool.false_eq_true, if_false, hg]
          simp [pointEvents, gvBatchOf, ih (some gvlist)]

/-- The special-point distances appended across paths, prefixed with the
starting distance, are non-decreasing — whether or not construction
completed. -/
lemma set_band_special_chain (cfg : Config) (w : Walker) (paths : List (List Vec3)) :
    List.Chain' (· ≤ ·) (w.distance :: (set_band_loop cfg w paths).special_tail) := by
  induction paths generalizing w with
  | nil => simp [set_band_loop]
  | cons path rest ih =>
    cases path with
    | nil => simp [set_band_loop]
    | cons q0 tl =>
      simp only [set_band_loop]
      cases hpr : (solve_points cfg (cfg.group_velocity.map fun f => f (q0 :: tl))
          (set_initial_point w q0) 0 (q0 :: tl)).error with
      | some e => simp
      | none =>
        dsimp only
        refine List.chain'_cons.mpr ⟨?_, ih _⟩
        exact solve_points_walker_mono cfg _ (set_initial_point w q0) 0 (q0 :: tl)

/-- All recorded distances, flattened across paths in order and prefixed with
the starting distance, are non-decreasing: the distance never resets at a
path boundary. -/
lemma set_band_flat_chain (cfg : Config) (w : Walker) (paths : List (List Vec3)) :
    List.Chain' (· ≤ ·) (w.distance :: (set_band_loop cfg w paths).distances.flatten) := by
  induction paths generalizing w with
  | nil => simp [set_band_loop]
  | cons path rest ih =>
    cases path with
    | nil => simp [set_band_loop]
    | cons q0 tl =>
      simp only [set_band_loop]
      cases hpr : (solve_points cfg (cfg.group_velocity.map fun f => f (q0 :: tl))
          (set_initial_point w q0) 0 (q0 :: tl)).error with
      | some e => simp
      | none =>
        dsimp only
        rw [List.flatten_cons, ← List.cons_append]
        have h₁ : List.Chain' (· ≤ ·) (w.distance ::
            (solve_points cfg (cfg.group_velocity.map fun f => f (q0 :: tl))
              (set_initial_point w q0) 0 (q0 :: tl)).distances) :=
          solve_points_chain cfg _ (set_initial_point w q0) 0 (q0 :: tl)
        have h₂ := ih (solve_points cfg (cfg.group_velocity.map fun f => f (q0 :: tl))
            (set_initial_point w q0) 0 (q0 :: tl)).walker
        refine h₁.append h₂.tail ?_
        intro x hx y hy
        rw [List.getLast?_cons, Option.mem_def, Option.some_inj] at hx
        have hw := solve_points_walker_getLastD cfg
          (cfg.group_velocity.map fun f => f (q0 :: tl)) (set_initial_point w q0) 0 (q0 :: tl)
        rw [List.getLastD_eq_getLast?] at hw
        have hxw : (solve_points cfg (cfg.group_velocity.map fun f => f (q0 :: tl))
            (set_initial_point w q0) 0 (q0 :: tl)).walker.distance = x := by
          rw [hw]
          exact hx
        rw [← hxw]
        exact (List.chain'_cons'.mp h₂).1 y hy

/-- Characterization of a completed construction loop: one special point and
one distance list per path; retained point-group symbols are the per-point
oracle answers of every path (a whole list per path); and the event log is,
path by path, the batch group-velocity call (if configured) followed by two
density prints per point keyed by the recorded distances. -/
lemma set_band_ok (cfg : Config) (w : Walker) (paths : List (List Vec3))
    (h : (set_band_loop cfg w paths).error = none) :
    (set_band_loop cfg w paths).special_tail.length = paths.length
  ∧ (set_band_loop cfg w paths).distances.length = paths.length
  ∧ (set_band_loop cfg w paths).pg_symbols
      = paths.map (fun p => p.map cfg.es.get_pointgroup_symbol)
  ∧ (set_band_loop cfg w paths).log
      = logSpec cfg paths (set_band_loop cfg w paths).distances := by
  induction paths generalizing w with
  | nil => simp [set_band_loop, logSpec]
  | cons path rest ih =>
    cases path with
    | nil => simp [set_band_loop] at h
    | cons q0 tl =>
      simp only [set_band_loop] at h ⊢
      cases hpr : (solve_points cfg (cfg.group_velocity.map fun f => f (q0 :: tl))
          (set_initial_point w q0) 0 (q0 :: tl)).error with
      | some e => rw [hpr] at h; simp at h
      | none =>
        rw [hpr] at h
        dsimp only at h ⊢
        obtain ⟨i1, i2, i3, i4⟩ := ih _ h
        obtain ⟨s1, s2, s3, s4⟩ := solve_points_ok cfg _ (set_initial_point w q0) 0 (q0 :: tl) hpr
        refine ⟨by simpa using i1, by simpa using i2, ?_, ?_⟩
        · simp only [List.map_cons, List.cons.injEq]
          exact ⟨s3, i3⟩
        · simp only [logSpec, List.zip_cons_cons, List.flatMap_cons, pathEventsSpec]
          rw [s4, i4]
          simp only [logSpec, pathEventsSpec, List.append_assoc]

/-- If construction completed, every path was non-empty and its stored distance
list starts with the cumulative distance the path was entered at: special
point `p` (where special point 0 is the seed) is the head of path `p`'s
distances. -/
lemma set_band_heads (cfg : Config) (w : Walker) (paths : List (List Vec3))
    (h : (set_band_loop cfg w paths).error = none) :
    ∀ p, p < paths.length →
      (((set_band_loop cfg w paths).distances[p]?).getD []).head?
        = (w.distance :: (set_band_loop cfg w paths).special_tail)[p]? := by
  induction paths generalizing w with
  | nil => simp
  | cons path rest ih =>
    cases path with
    | nil => simp [set_band_loop] at h
    | cons q0 tl =>
      simp only [set_band_loop] at h ⊢
      cases hpr : (solve_points cfg (cfg.group_velocity.map fun f => f (q0 :: tl))
          (set_initial_point w q0) 0 (q0 :: tl)).error with
      | some e => rw [hpr] at h; simp at h
      | none =>
        rw [hpr] at h
        dsimp only at h ⊢
        intro p hp
        obtain ⟨s1, s2, s3, s4⟩ := solve_points_ok cfg _ (set_initial_point w q0) 0 (q0 :: tl) hpr
        cases p with
        | zero =>
          simp only [List.getElem?_cons_zero, Option.getD_some]
          rw [s2]
          simp [shift_point_same]
        | succ p' =>
          have hp' : p' < rest.length := by simpa using hp
          simpa using ih _ h p' hp'

/-- If construction completed, special point `p + 1` is the last recorded
distance of path `p`: the cumulative distance at the end of that path. -/
lemma set_band_last (cfg : Config) (w : Walker) (paths : List (List Vec3))
    (h : (set_band_loop cfg w paths).error = none) :
    ∀ p, p < paths.length →
      (set_band_loop cfg w paths).special_tail[p]?
        = (((set_band_loop cfg w paths).distances[p]?).getD []).getLast? := by
  induction paths generalizing w with
  | nil => simp
  | cons path rest ih =>
    cases path with
    | nil => simp [set_band_loop] at h
    | cons q0 tl =>
      simp only [set_band_loop] at h ⊢
      cases hpr : (solve_points cfg (cfg.group_velocity.map fun f => f (q0 :: tl))
          (set_initial_point w q0) 0 (q0 :: tl)).error with
      | some e => rw [hpr] at h; simp at h
      | none =>
        rw [hpr] at h
        dsimp only at h ⊢
        intro p hp
        cases p with
        | zero =>
          simp only [List.getElem?_cons_zero, Option.getD_some]
          obtain ⟨s1, s2, s3, s4⟩ := solve_points_ok cfg _ (set_initial_point w q0) 0 (q0 :: tl) hpr
          obtain ⟨d0, ds, hds⟩ : ∃ d0 ds,
              (solve_points cfg (cfg.group_velocity.map fun f => f (q0 :: tl))
                (set_initial_point w q0) 0 (q0 :: tl)).distances = d0 :: ds := by
            cases hd : (solve_points cfg (cfg.group_velocity.map fun f => f (q0 :: tl))
                (set_initial_point w q0) 0 (q0 :: tl)).distances with
            | nil => rw [hd] at s2; simp at s2
            | cons d0 ds => exact ⟨d0, ds, rfl⟩
          have hw := solve_points_walker_getLastD cfg
            (cfg.group_velocity.map fun f => f (q0 :: tl)) (set_initial_point w q0) 0 (q0 :: tl)
          rw [hds] at hw ⊢
          rw [List.getLastD_cons, List.getLastD_eq_getLast?] at hw
          rw [List.getLast?_cons, hw]
        | succ p' =>
          have hp' : p' < rest.length := by simpa using hp
          simpa using ih _ h p' hp'

/-- With no group-velocity collaborator, no per-path group-velocity list is
ever collected. -/
lemma set_band_gv_none (cfg : Config) (w : Walker) (paths : List (List Vec3))
    (hf : cfg.group_velocity = none) :
    (set_band_loop cfg w paths).group_velocities = [] := by
  induction paths generalizing w with
  | nil => simp [set_band_loop]
  | cons path rest ih =>
    cases path with
    | nil => simp [set_band_loop]
    | cons q0 tl =>
      simp only [set_band_loop]
      cases hpr : (solve_points cfg (cfg.group_velocity.map fun f => f (q0 :: tl))
          (set_initial_point w q0) 0 (q0 :: tl)).error with
      | some e => simp
      | none =>
        dsimp only
        rw [hf]
        exact ih _

/-- The group-velocity batch calls recorded in the log are exactly one per
path, in path order, each consuming the whole path — when construction
completed and a collaborator is configured; with no collaborator there are
none. -/
lemma set_band_gvlog (cfg : Config) (w : Walker) (paths : List (List Vec3))
    (h : (set_band_loop cfg w paths).error = none) :
    (set_band_loop cfg w paths).log.filterMap gvBatchOf
      = (match cfg.group_velocity with
         | some _ => paths
         | none => []) := by
  induction paths generalizing w with
  | nil =>
    cases cfg.group_velocity <;> simp [set_band_loop]
  | cons path rest ih =>
    cases path with
    | nil => simp [set_band_loop] at h
    | cons q0 tl =>
      simp only [set_band_loop] at h ⊢
      cases hpr : (solve_points cfg (cfg.group_velocity.map fun f => f (q0 :: tl))
          (set_initial_point w q0) 0 (q0 :: tl)).error with
      | some e => rw [hpr] at h; simp at h
      | none =>
        rw [hpr] at h
        dsimp only at h ⊢
        rw [List.filterMap_append, List.filterMap_append,
          solve_points_log_densities, ih _ h]
        cases hgv : cfg.group_velocity with
        | none => simp [gvEvents, hgv]
        | some f => simp [gvEvents, hgv, gvBatchOf]

/-- On a completed construction with a collaborator configured, one
group-velocity list is collected per path, and the entry stored for the j-th
point of path `p` is the j-th entry of the batch result for that path:
positional indexing, never resynchronized. -/
lemma set_band_gv_ok (cfg : Config) (w : Walker) (paths : List (List Vec3))
    (f : GvCalc) (hf : cfg.group_velocity = some f)
    (h : (set_band_loop cfg w paths).error = none) :
    (set_band_loop cfg w paths).group_velocities.length = paths.length
  ∧ ∀ (p : ℕ) (pathp : List Vec3), paths[p]? = some pathp →
      ∃ gvs : List (List Vec3),
        (set_band_loop cfg w paths).group_velocities[p]? = some gvs
        ∧ ∀ j, j < pathp.length → gvs[j]? = (f pathp)[j]? := by
  induction paths generalizing w with
  | nil => simp [set_band_loop]
  | cons path rest ih =>
    cases path with
    | nil => simp [set_band_loop] at h
    | cons q0 tl =>
      simp only [set_band_loop] at h ⊢
      cases hpr : (solve_points cfg (cfg.group_velocity.map fun f => f (q0 :: tl))
          (set_initial_point w q0) 0 (q0 :: tl)).error with
      | some e => rw [hpr] at h; simp at h
      | none =>
        rw [hpr] at h
        dsimp only at h ⊢
        simp only [hf, Option.map_some] at h ⊢
        obtain ⟨i1, i2⟩ := ih _ h
        have hpr' : (solve_points cfg (some (f (q0 :: tl)))
            (set_initial_point w q0) 0 (q0 :: tl)).error = none := by
          simp only [hf, Option.map_some] at hpr
          exact hpr
        obtain ⟨g1, g2⟩ := solve_points_gv_ok cfg (f (q0 :: tl))
          (set_initial_point w q0) 0 (q0 :: tl) hpr'
        constructor
        · simpa using i1
        · intro p pathp hp
          cases p with
          | zero =>
            simp only [List.getElem?_cons_zero, Option.some_inj] at hp
            subst hp
            refine ⟨(solve_points cfg (some (f (q0 :: tl)))
                (set_initial_point w q0) 0 (q0 :: tl)).gv, by simp, ?_⟩
            intro j hj
            simpa using g2 j hj
          | succ p' =>
            simp only [List.getElem?_cons_succ] at hp
            obtain ⟨gvs, hg1, hg2⟩ := i2 p' pathp hp
            exact ⟨gvs, by simpa using hg1, hg2⟩

/-- The exception propagating out of the constructor is the first exception of
the `_set_band` run. -/
lemma init_snd (a : Args) : (initBandStructure a).2 = (bandRun a).error := by
  unfold initBandStructure
  cases h : (bandRun a).error <;> simp [h]

/-- The special points are the seeded `0.` followed by the per-path terminal
distances appended during the run (also when the run raised: the attribute is
mutated path by path). -/
lemma init_special (a : Args) :
    (initBandStructure a).1.special_point = 0 :: (bandRun a).special_tail := by
  unfold initBandStructure
  cases h : (bandRun a).error <;> simp [h]

/-- The stream log of the constructed object is the run's log. -/
lemma init_log (a : Args) : (initBandStructure a).1.log = (bandRun a).log := by
  unfold initBandStructure
  cases h : (bandRun a).error <;> simp [h]

/-- The final cumulative distance is the run's walker distance. -/
lemma init_distance (a : Args) :
    (initBandStructure a).1.distance = (bandRun a).walker.distance := by
  unfold initBandStructure
  cases h : (bandRun a).error <;> simp [h]

/-- The configured group-velocity collaborator is stored unchanged. -/
lemma init_gv_cfg (a : Args) :
    (initBandStructure a).1.group_velocity = a.group_velocity := by
  unfold initBandStructure
  cases h : (bandRun a).error <;> simp [h]

/-- On completed construction the distances container holds the run's
per-path distance lists. -/
lemma init_distances_of_ok (a : Args) (h : (bandRun a).error = none) :
    (initBandStructure a).1.distances = (bandRun a).distances := by
  unfold initBandStructure
  simp [h]

/-- On completed construction the point-group container holds the run's
per-path symbol lists. -/
lemma init_pg_of_ok (a : Args) (h : (bandRun a).error = none) :
    (initBandStructure a).1.pg_symbols = some (bandRun a).pg_symbols := by
  unfold initBandStructure
  simp [h]

/-- On completed construction the group-velocity container is the collected
per-path lists iff a collaborator is configured. -/
lemma init_gvs_of_ok (a : Args) (h : (bandRun a).error = none) :
    (initBandStructure a).1.group_velocities
      = (match a.group_velocity with
         | some _ => some (bandRun a).group_velocities
         | none => none) := by
  unfold initBandStructure
  cases hgv : a.group_velocity <;> simp [h, hgv]

/-- On a raised construction the late-assigned containers were never
assigned and the distances attribute keeps its initialisation value. -/
lemma init_of_err (a : Args) (e : PyError) (h : (bandRun a).error = some e) :
    (initBandStructure a).1.distances = []
  ∧ (initBandStructure a).1.frequencies = none
  ∧ (initBandStructure a).1.pr_weights = none
  ∧ (initBandStructure a).1.pg_symbols = none
  ∧ (initBandStructure a).1.eigenvectors = none
  ∧ (initBandStructure a).1.group_velocities = none := by
  unfold initBandStructure
  simp [h]

/-- Indexing into a flat map that emits exactly two elements per input: the
entries at positions `2n` and `2n + 1` come from input `n`. -/
lemma flatMap_pair_getElem {α β : Type} (f g : α → β) (l : List α) (n : ℕ) (x : α)
    (h : l[n]? = some x) :
    (l.flatMap (fun y => [f y, g y]))[2 * n]? = some (f x)
  ∧ (l.flatMap (fun y => [f y, g y]))[2 * n + 1]? = some (g x) := by
  induction l generalizing n with
  | nil => simp at h
  | cons y ys ih =>
    cases n with
    | zero =>
      simp only [List.getElem?_cons_zero, Option.some_inj] at h
      subst h
      simp [List.flatMap_cons]
    | succ n' =>
      simp only [List.getElem?_cons_succ] at h
      obtain ⟨h1, h2⟩ := ih n' h
      rw [List.flatMap_cons]
      have e1 : 2 * (n' + 1) = 2 * n' + 1 + 1 := by ring
      have e2 : 2 * (n' + 1) + 1 = 2 * n' + 1 + 1 + 1 := by ring
      constructor
      · rw [e1]
        simpa using h1
      · rw [e2]
        simpa using h2

/-- The density prints of a completed run's log, with the group-velocity batch
calls filtered out: exactly two per q-point, atoms first, then irs. -/
lemma logSpec_densities (cfg : Config) (paths : List (List Vec3))
    (dists : List (List ℝ)) :
    (logSpec cfg paths dists).filterMap densityOf
      = ((paths.zip dists).flatMap (fun pd => pd.1.zip pd.2)).flatMap
          (fun qd => [(SfStream.atoms, atomsCallAt cfg qd.1 qd.2),
                      (SfStream.irs, irsCallAt cfg qd.1 qd.2)]) := by
  unfold logSpec
  rw [List.filterMap_flatMap, List.flatMap_assoc]
  congr 1
  funext pd
  unfold pathEventsSpec
  rw [List.filterMap_append, List.filterMap_flatMap]
  have hgv : (gvEvents cfg pd.1).filterMap densityOf = [] := by
    cases hg : cfg.group_velocity <;> simp [gvEvents, hg, densityOf]
  rw [hgv, List.nil_append]
  rfl

/-- The source never constructs a `group_velocities` record holding collected
arrays: the only `group_velocities` record it can emit holds the collaborator
object (`data=self._group_velocity`, source line 95). -/
lemma write_hdf5_never_writes_collected_gv (bs : BandStructure)
    (l : List (String × H5Data)) (hl : write_hdf5 bs = Except.ok l)
    (v : List (List (List Vec3))) :
    ("group_velocities", H5Data.group_velocities_data v) ∉ l := by
  unfold write_hdf5 at hl
  split at hl
  · simp only [Except.ok.injEq] at hl
    subst hl
    intro hv
    rw [List.mem_append, List.mem_append] at hv
    rcases hv with (hv | hv) | hv
    · simp at hv
    · cases hgv : bs.group_velocity <;> rw [hgv] at hv <;> simp at hv
    · cases he : bs.eigenvectors <;> rw [he] at hv <;> simp at hv
  · simp at hl

/-- The origin q-point `[0, 0, 0]`. -/
def q000 : Vec3 := fun _ => 0

/-- The q-point `[1, 1, 1]`. -/
def q111 : Vec3 := fun _ => 1

/-- A two-band eigenstate oracle with constant answers: eigenvalues 1 and 4,
identity-like eigenvectors, unit weights, one irrep, point group `C1`. -/
noncomputable def esConst : Eigenstates :=
  { extract_eigenstates := fun _ =>
      { eigvals := [1, 4]
        eigvecs := [[1, 0], [0, 1]]
        pr_weights := [1, 1]
        rot_pr_weights := [[1], [1]] }
    get_pointgroup_symbol := fun _ => "C1"
    get_narms := fun _ => 1
    get_num_irs := fun _ => 1
    get_ir_labels := fun _ => ["A"] }

/-- An eigenstate oracle answering point-group symbol `A` at the origin and
`B` elsewhere, otherwise as `esConst`. -/
noncomputable def esSplit : Eigenstates :=
  { esConst with get_pointgroup_symbol := fun q => if q 0 = 0 then "A" else "B" }

/-- A batch group-velocity calculator: for every point of the consumed path,
two bands of zero velocity. -/
def gvConst : GvCalc := fun qs => qs.map (fun _ => [q000, q000])

/-- A single-path, single-point, two-band construction with the identity
lattice, no NAC, and both optional features disabled. -/
noncomputable def argsOK : Args :=
  { paths := [[q000]]
    is_nac := false
    cell := 1
    natom := 1
    es := esConst
    factor := 1
    is_eigenvectors := false
    is_band_connection := false
    group_velocity := none }

/-- As `argsOK` but with non-analytic correction enabled on the dynamical
matrix. -/
noncomputable def argsNac : Args :=
  { argsOK with is_nac := true }

/-- One path of two points whose point-group symbols differ (`A` then `B`). -/
noncomputable def argsAB : Args :=
  { argsOK with paths := [[q000, q111]], es := esSplit }

/-- As `argsOK` but with a group-velocity collaborator configured. -/
noncomputable def argsGV : Args :=
  { argsOK with group_velocity := some gvConst }

/-- C1: the advance operation (`_shift_point`) increases the cumulative
distance by exactly the Euclidean norm of `(q - previous)` multiplied by the
transposed inverse of the ideal primitive cell's real-space lattice matrix and
then sets `previous := q`; the reset operation (`_set_initial_point`) sets
only the reference point and leaves the cumulative distance unchanged; hence
every increment is non-negative, and over a whole construction the recorded
cumulative distances, flattened across all paths in order behind the initial
`0.`, are monotonically non-decreasing — the distance never resets at a path
boundary. -/
theorem walker_advance_reset_monotone :
    (∀ (cell : Mat3) (w : Walker) (q : Vec3),
        (shift_point cell w q).distance
          = w.distance + linalgNorm (Matrix.vecMul (q - w.lastq) (mat3InvT cell))
      ∧ (shift_point cell w q).lastq = q)
  ∧ (∀ (w : Walker) (q : Vec3),
        (set_initial_point w q).distance = w.distance
      ∧ (set_initial_point w q).lastq = q)
  ∧ (∀ (cell : Mat3) (w : Walker) (q : Vec3),
        w.distance ≤ (shift_point cell w q).distance)
  ∧ (∀ a : Args,
        List.Chain' (· ≤ ·) (0 :: (initBandStructure a).1.distances.flatten)) := by
  refine ⟨fun _ _ _ => ⟨rfl, rfl⟩, fun _ _ => ⟨rfl, rfl⟩, shift_point_le, ?_⟩
  intro a
  cases h : (bandRun a).error with
  | none =>
    rw [init_distances_of_ok a h]
    exact set_band_flat_chain (cfgOf a) { distance := 0, lastq := 0 } a.paths
  | some e =>
    rw [(init_of_err a e h).1]
    simp

/-- C2: after a construction that completes, the special-point sequence has
one entry per path plus the seeded leading `0.`, starts at `0.`, is
non-decreasing, and entry `p + 1` is the cumulative distance recorded at the
end of path `p`. -/
theorem special_points_shape (a : Args)
    (h : (initBandStructure a).2 = none) :
    (initBandStructure a).1.special_point.length = a.paths.length + 1
  ∧ (initBandStructure a).1.special_point.head? = some 0
  ∧ List.Chain' (· ≤ ·) (initBandStructure a).1.special_point
  ∧ ∀ p : ℕ, p < a.paths.length →
      (initBandStructure a).1.special_point[p + 1]?
        = (((initBandStructure a).1.distances[p]?).getD []).getLast? := by
  rw [init_snd] at h
  obtain ⟨l1, -, -, -⟩ :=
    set_band_ok (cfgOf a) { distance := 0, lastq := 0 } a.paths h
  have hl1 : (bandRun a).special_tail.length = a.paths.length := l1
  refine ⟨?_, ?_, ?_, ?_⟩
  · rw [init_special a]
    simp [hl1]
  · rw [init_special a]
    rfl
  · rw [init_special a]
    exact set_band_special_chain (cfgOf a) { distance := 0, lastq := 0 } a.paths
  · intro p hp
    rw [init_special a, init_distances_of_ok a h]
    have hlast := set_band_last (cfgOf a) { distance := 0, lastq := 0 } a.paths h p hp
    simpa using hlast

/-- C2 witness: the single-path single-point construction completes and its
special points behave as stated. -/
theorem special_points_shape_witness :
    (initBandStructure argsOK).2 = none
  ∧ ((initBandStructure argsOK).1.special_point.length = argsOK.paths.length + 1
     ∧ (initBandStructure argsOK).1.special_point.head? = some 0
     ∧ List.Chain' (· ≤ ·) (initBandStructure argsOK).1.special_point
     ∧ ∀ p : ℕ, p < argsOK.paths.length →
         (initBandStructure argsOK).1.special_point[p + 1]?
           = (((initBandStructure argsOK).1.distances[p]?).getD []).getLast?) :=
  ⟨rfl, special_points_shape argsOK rfl⟩

/-- C3: with non-analytic correction enabled and at least one q-point
requested, construction aborts with the unimplemented-feature `ValueError` at
the very first point: nothing is printed to either density stream, no
per-point artifact container is ever assigned, the special points still hold
only the seed, and the cumulative distance is still `0.`. -/
theorem nac_aborts_before_solving (a : Args) (q0 : Vec3) (tl : List Vec3)
    (ps : List (List Vec3)) (hn : a.is_nac = true)
    (hp : a.paths = (q0 :: tl) :: ps) :
    (initBandStructure a).2 = some PyError.valueError
  ∧ (initBandStructure a).1.log.filterMap densityOf = []
  ∧ (initBandStructure a).1.frequencies = none
  ∧ (initBandStructure a).1.pr_weights = none
  ∧ (initBandStructure a).1.pg_symbols = none
  ∧ (initBandStructure a).1.eigenvectors = none
  ∧ (initBandStructure a).1.distances = []
  ∧ (initBandStructure a).1.special_point = [0]
  ∧ (initBandStructure a).1.distance = 0 := by
  have hcfg : (cfgOf a).is_nac = true := hn
  have hrun : bandRun a =
      { walker := shift_point (cfgOf a).cell
          (set_initial_point { distance := 0, lastq := 0 } q0) q0
        log := gvEvents (cfgOf a) (q0 :: tl)
        error := some PyError.valueError } := by
    unfold bandRun
    rw [hp]
    simp only [set_band_loop, solve_points, hcfg, if_true, List.append_nil]
  have herr : (bandRun a).error = some PyError.valueError := by rw [hrun]
  obtain ⟨e1, e2, e3, e4, e5, e6⟩ := init_of_err a PyError.valueError herr
  refine ⟨?_, ?_, e2, e3, e4, e5, e1, ?_, ?_⟩
  · rw [init_snd, herr]
  · rw [init_log, hrun]
    cases hg : a.group_velocity with
    | none => simp [gvEvents, cfgOf, hg, densityOf]
    | some f => simp [gvEvents, cfgOf, hg, densityOf]
  · rw [init_special a, hrun]
  · rw [init_distance, hrun]
    exact shift_point_same (cfgOf a).cell { distance := 0, lastq := 0 } q0

/-- C3 witness: the concrete NAC-enabled single-point construction aborts
exactly as stated. -/
theorem nac_aborts_before_solving_witness :
    (initBandStructure argsNac).2 = some PyError.valueError
  ∧ (initBandStructure argsNac).1.log.filterMap densityOf = []
  ∧ (initBandStructure argsNac).1.frequencies = none
  ∧ (initBandStructure argsNac).1.pr_weights = none
  ∧ (initBandStructure argsNac).1.pg_symbols = none
  ∧ (initBandStructure argsNac).1.eigenvectors = none
  ∧ (initBandStructure argsNac).1.distances = []
  ∧ (initBandStructure argsNac).1.special_point = [0]
  ∧ (initBandStructure argsNac).1.distance = 0 :=
  nac_aborts_before_solving argsNac q000 [] [] rfl rfl

/-- C4: on a completed construction, the density extractor is invoked exactly
twice per solved q-point, in path-then-point order: first printing to the
atoms stream with the atom-resolved partial weights, then to the irs stream
with the rotated partial weights sliced to the first `num_irs` columns — both
keyed by that point's recorded cumulative distance, the arm count, and the
point's frequency set (see `atomsCallAt` / `irsCallAt`). -/
theorem density_two_calls_per_point (a : Args)
    (h : (initBandStructure a).2 = none) :
    (initBandStructure a).1.log.filterMap densityOf
      = (a.paths.zip (initBandStructure a).1.distances).flatMap (fun pd =>
          (pd.1.zip pd.2).flatMap (fun qd =>
            [(SfStream.atoms, atomsCallAt (cfgOf a) qd.1 qd.2),
             (SfStream.irs, irsCallAt (cfgOf a) qd.1 qd.2)])) := by
  rw [init_snd] at h
  obtain ⟨-, -, -, hlog⟩ :=
    set_band_ok (cfgOf a) { distance := 0, lastq := 0 } a.paths h
  have hlog' : (bandRun a).log = logSpec (cfgOf a) a.paths (bandRun a).distances := hlog
  rw [init_log, init_distances_of_ok a h, hlog', logSpec_densities]
  exact List.flatMap_assoc ..

/-- C4 witness: the single-path single-point construction completes and its
density log is exactly the stated two calls for its one point. -/
theorem density_two_calls_per_point_witness :
    (initBandStructure argsOK).2 = none
  ∧ (initBandStructure argsOK).1.log.filterMap densityOf
      = (argsOK.paths.zip (initBandStructure argsOK).1.distances).flatMap (fun pd =>
          (pd.1.zip pd.2).flatMap (fun qd =>
            [(SfStream.atoms, atomsCallAt (cfgOf argsOK) qd.1 qd.2),
             (SfStream.irs, irsCallAt (cfgOf argsOK) qd.1 qd.2)])) :=
  ⟨rfl, density_two_calls_per_point argsOK rfl⟩

/-- C9: advancing to the very point the walker was just reset to contributes a
zero increment, and consequently, on a completed construction, the distance
recorded for the first point of every path equals the cumulative distance at
the start of that path — the preceding special-point value, `0.` for the
first path. -/
theorem first_point_distance_is_path_start (a : Args)
    (h : (initBandStructure a).2 = none) :
    (∀ (cell : Mat3) (w : Walker) (q : Vec3),
        (shift_point cell (set_initial_point w q) q).distance = w.distance)
  ∧ ∀ p : ℕ, p < (initBandStructure a).1.distances.length →
      (((initBandStructure a).1.distances[p]?).getD []).head?
        = (initBandStructure a).1.special_point[p]? := by
  rw [init_snd] at h
  refine ⟨shift_point_same, ?_⟩
  intro p hp
  rw [init_distances_of_ok a h] at hp ⊢
  rw [init_special a]
  have hlen : (bandRun a).distances.length = a.paths.length :=
    (set_band_ok (cfgOf a) { distance := 0, lastq := 0 } a.paths h).2.1
  exact set_band_heads (cfgOf a) { distance := 0, lastq := 0 } a.paths h p (hlen ▸ hp)

/-- C9 witness: in the concrete single-path construction the first (only)
point's recorded distance is the seed special point `0.`, and the zero-delta
advance is evaluated at a concrete walker. -/
theorem first_point_distance_is_path_start_witness :
    (initBandStructure argsOK).2 = none
  ∧ (shift_point 1 (set_initial_point { distance := 0, lastq := 0 } q000) q000).distance = 0
  ∧ (((initBandStructure argsOK).1.distances[0]?).getD []).head?
      = (initBandStructure argsOK).1.special_point[0]? := by
  refine ⟨rfl, ?_, ?_⟩
  · exact (first_point_distance_is_path_start argsOK rfl).1 1
      { distance := 0, lastq := 0 } q000
  · exact (first_point_distance_is_path_start argsOK rfl).2 0 Nat.zero_lt_one

/-- C10: on a completed construction, the two density calls of the n-th solved
q-point differ in their eigenvector argument exactly as the source passes
them: the atoms-stream call carries the point's eigenvectors as
`eigenvectors_data`, the irs-stream call carries none. -/
theorem density_calls_eigenvector_argument (a : Args)
    (h : (initBandStructure a).2 = none) (n : ℕ) (q : Vec3) (d : ℝ)
    (hn : ((a.paths.zip (initBandStructure a).1.distances).flatMap
            (fun pd => pd.1.zip pd.2))[n]? = some (q, d)) :
    ((initBandStructure a).1.log.filterMap densityOf)[2 * n]?
        = some (SfStream.atoms, atomsCallAt (cfgOf a) q d)
  ∧ ((initBandStructure a).1.log.filterMap densityOf)[2 * n + 1]?
        = some (SfStream.irs, irsCallAt (cfgOf a) q d)
  ∧ (atomsCallAt (cfgOf a) q d).eigenvectors_data
        = some ((cfgOf a).es.extract_eigenstates q).eigvecs
  ∧ (irsCallAt (cfgOf a) q d).eigenvectors_data = none := by
  rw [init_snd] at h
  obtain ⟨-, -, -, hlog⟩ :=
    set_band_ok (cfgOf a) { distance := 0, lastq := 0 } a.paths h
  have hlog' : (bandRun a).log = logSpec (cfgOf a) a.paths (bandRun a).distances := hlog
  have hd : (initBandStructure a).1.log.filterMap densityOf
      = ((a.paths.zip (initBandStructure a).1.distances).flatMap
          (fun pd => pd.1.zip pd.2)).flatMap
          (fun qd => [(SfStream.atoms, atomsCallAt (cfgOf a) qd.1 qd.2),
                      (SfStream.irs, irsCallAt (cfgOf a) qd.1 qd.2)]) := by
    rw [init_log, init_distances_of_ok a h, hlog', logSpec_densities]
  obtain ⟨g1, g2⟩ := flatMap_pair_getElem
    (fun qd : Vec3 × ℝ => (SfStream.atoms, atomsCallAt (cfgOf a) qd.1 qd.2))
    (fun qd : Vec3 × ℝ => (SfStream.irs, irsCallAt (cfgOf a) qd.1 qd.2))
    ((a.paths.zip (initBandStructure a).1.distances).flatMap
      (fun pd => pd.1.zip pd.2)) n (q, d) hn
  rw [hd]
  exact ⟨g1, g2, rfl, rfl⟩

/-- The cumulative distance recorded at the only point of the `argsOK`
construction (the zero-length advance from the origin). -/
noncomputable def d00 : ℝ :=
  (0 : ℝ) + linalgNorm (Matrix.vecMul (q000 - q000) (mat3InvT 1))

/-- C10 witness: the first point of the concrete construction gets its two
density calls with and without eigenvector data respectively. -/
theorem density_calls_eigenvector_argument_witness :
    (initBandStructure argsOK).2 = none
  ∧ (((initBandStructure argsOK).1.log.filterMap densityOf)[0]?
        = some (SfStream.atoms, atomsCallAt (cfgOf argsOK) q000 d00)
     ∧ ((initBandStructure argsOK).1.log.filterMap densityOf)[1]?
        = some (SfStream.irs, irsCallAt (cfgOf argsOK) q000 d00)
     ∧ (atomsCallAt (cfgOf argsOK) q000 d00).eigenvectors_data
        = some ((cfgOf argsOK).es.extract_eigenstates q000).eigvecs
     ∧ (irsCallAt (cfgOf argsOK) q000 d00).eigenvectors_data = none) :=
  ⟨rfl, density_calls_eigenvector_argument argsOK rfl 0 q000 d00 rfl⟩

/-- C7 counterexample: in a completed two-point single-path construction whose
points have different point-group symbols, the per-path retained entry is the
two-element list of both symbols — not one symbol per path and not only the
last point's value. -/
theorem pg_symbol_retention_counterexample :
    (initBandStructure argsAB).2 = none
  ∧ (initBandStructure argsAB).1.pg_symbols = some [["A", "B"]]
  ∧ (["A", "B"] : List String).length ≠ 1
  ∧ (["A", "B"] : List String) ≠ ["B"] := by
  refine ⟨rfl, ?_, by decide, by decide⟩
  have h1 : esSplit.get_pointgroup_symbol q000 = "A" := by
    simp [esSplit, q000]
  have h2 : esSplit.get_pointgroup_symbol q111 = "B" := by
    simp [esSplit, q111]
  rw [init_pg_of_ok argsAB rfl]
  obtain ⟨-, -, h3, -⟩ :=
    set_band_ok (cfgOf argsAB) { distance := 0, lastq := 0 } argsAB.paths rfl
  have h3' : (bandRun argsAB).pg_symbols
      = argsAB.paths.map (fun p => p.map (cfgOf argsAB).es.get_pointgroup_symbol) := h3
  rw [h3']
  show some [[esSplit.get_pointgroup_symbol q000, esSplit.get_pointgroup_symbol q111]] = _
  rw [h1, h2]

/-- C7 amended: on a completed construction the result retains, for every
path, the point-group symbols of ALL of that path's points in point order
(one list per path, whose last entry is the last point's value): the
collaborator's symbol is read and appended once per point, and
`get_pg_symbol_on_path` exposes the whole per-point list. -/
theorem pg_symbols_per_point_retained (a : Args)
    (h : (initBandStructure a).2 = none) :
    (initBandStructure a).1.pg_symbols
      = some (a.paths.map (fun p => p.map a.es.get_pointgroup_symbol)) := by
  rw [init_snd] at h
  rw [init_pg_of_ok a h]
  obtain ⟨-, -, h3, -⟩ :=
    set_band_ok (cfgOf a) { distance := 0, lastq := 0 } a.paths h
  exact congrArg some h3

/-- C7 amended witness: the per-point symbols `A` and `B` of the two-point
path are both retained, in point order. -/
theorem pg_symbols_per_point_retained_witness :
    (initBandStructure argsAB).2 = none
  ∧ (initBandStructure argsAB).1.pg_symbols
      = some (argsAB.paths.map (fun p => p.map argsAB.es.get_pointgroup_symbol)) :=
  ⟨rfl, pg_symbols_per_point_retained argsAB rfl⟩

/-- C8: on a completed construction, if and only if a group-velocity
collaborator is configured, the log contains exactly one batch call per path,
placed before that path's per-point density prints (the whole log is
`logSpec`), each batch call consuming the whole path; and the velocity stored
for the j-th point of path `p` is the j-th entry of the batch result for that
path — pure positional indexing.  With no collaborator there is no batch call
and no collected container. -/
theorem group_velocity_batch_iff_configured (a : Args)
    (h : (initBandStructure a).2 = none) :
    (∀ f : GvCalc, a.group_velocity = some f →
        (initBandStructure a).1.log.filterMap gvBatchOf = a.paths
      ∧ (initBandStructure a).1.log
          = logSpec (cfgOf a) a.paths (initBandStructure a).1.distances
      ∧ ∀ (p : ℕ) (pathp : List Vec3), a.paths[p]? = some pathp →
          ∃ gvs : List (List Vec3),
            ((initBandStructure a).1.group_velocities.getD [])[p]? = some gvs
            ∧ ∀ j, j < pathp.length → gvs[j]? = (f pathp)[j]?)
  ∧ (a.group_velocity = none →
        (initBandStructure a).1.log.filterMap gvBatchOf = []
      ∧ (initBandStructure a).1.group_velocities = none) := by
  rw [init_snd] at h
  have hgl := set_band_gvlog (cfgOf a) { distance := 0, lastq := 0 } a.paths h
  obtain ⟨-, -, -, hlog⟩ :=
    set_band_ok (cfgOf a) { distance := 0, lastq := 0 } a.paths h
  constructor
  · intro f hf
    have hf' : (cfgOf a).group_velocity = some f := hf
    refine ⟨?_, ?_, ?_⟩
    · rw [init_log]
      rw [hf'] at hgl
      exact hgl
    · rw [init_log, init_distances_of_ok a h]
      exact hlog
    · intro p pathp hp
      obtain ⟨-, hg2⟩ :=
        set_band_gv_ok (cfgOf a) { distance := 0, lastq := 0 } a.paths f hf' h
      obtain ⟨gvs, hg3, hg4⟩ := hg2 p pathp hp
      refine ⟨gvs, ?_, hg4⟩
      rw [init_gvs_of_ok a h, hf]
      exact hg3
  · intro hf
    have hf' : (cfgOf a).group_velocity = none := hf
    constructor
    · rw [init_log]
      rw [hf'] at hgl
      exact hgl
    · rw [init_gvs_of_ok a h, hf]

/-- C8 witness: with the concrete collaborator configured, construction
completes, exactly one batch call (consuming the whole path) is logged, and
the stored velocity of point 0 is entry 0 of the batch result. -/
theorem group_velocity_batch_iff_configured_witness :
    (initBandStructure argsGV).2 = none
  ∧ argsGV.group_velocity = some gvConst
  ∧ (initBandStructure argsGV).1.log.filterMap gvBatchOf = argsGV.paths
  ∧ ∃ gvs : List (List Vec3),
      ((initBandStructure argsGV).1.group_velocities.getD [])[0]? = some gvs
      ∧ ∀ j, j < ([q000] : List Vec3).length → gvs[j]? = (gvConst [q000])[j]? := by
  refine ⟨rfl, rfl, ?_, ?_⟩
  · exact ((group_velocity_batch_iff_configured argsGV rfl).1 gvConst rfl).1
  · exact ((group_velocity_batch_iff_configured argsGV rfl).1 gvConst rfl).2.2 0 [q000] rfl

/-- C5 (code bug): on the claim's own scenario — a completed single-path,
single-point, two-band construction with eigenvector and group-velocity
retention disabled — `write_yaml` raises `AttributeError` on `self._weights`
(an attribute no method ever assigns; `_set_band` assigns `self._pr_weights`)
right after the preamble: the emitted document contains no q-point block at
all and ends with the `phonon:` header, not with a blank line. -/
theorem write_yaml_raises_attribute_error :
    (initBandStructure argsOK).2 = none
  ∧ (write_yaml (initBandStructure argsOK).1).2
      = some (PyError.attributeError "_weights")
  ∧ ((write_yaml (initBandStructure argsOK).1).1.filter YamlLine.isQPosition) = []
  ∧ (write_yaml (initBandStructure argsOK).1).1.getLast?
      = some YamlLine.phonon_header :=
  ⟨rfl, rfl, rfl, rfl⟩

/-- C6 (code bug): on a completed construction with a group-velocity
collaborator configured and eigenvector retention disabled, the structured
dataset export does contain a `group_velocities` record and omits the
eigenvector record — but the record holds the collaborator object
(`data=self._group_velocity`), not the collected per-path arrays
(`self._group_velocities`, which the construction did populate), and no
record holding the collected arrays exists anywhere in the output. -/
theorem write_hdf5_gv_entry_is_collaborator_object :
    (initBandStructure argsGV).2 = none
  ∧ (initBandStructure argsGV).1.group_velocities = some [[[q000, q000]]]
  ∧ ((write_hdf5 (initBandStructure argsGV).1).toOption.getD []).map Prod.fst
      = ["paths", "distances", "nums_arms", "pg_symbols", "nums_irreps",
         "ir_labels", "frequencies", "pr_weights", "group_velocities"]
  ∧ ((write_hdf5 (initBandStructure argsGV).1).toOption.getD []).getLast?
      = some ("group_velocities", H5Data.gv_object gvConst)
  ∧ ∀ v : List (List (List Vec3)),
      ("group_velocities", H5Data.group_velocities_data v)
        ∉ ((write_hdf5 (initBandStructure argsGV).1).toOption.getD []) := by
  refine ⟨rfl, rfl, rfl, rfl, ?_⟩
  intro v
  exact write_hdf5_never_writes_collected_gv (initBandStructure argsGV).1 _ rfl v
